import Mathlib

/-!
Shallow embedding of the document-management application (PDF upload,
extraction, tagging, search, pagination) together with proofs of the
specification claims.  Pure functions of the source are translated to Lean
functions; the stateful backend is modelled by explicit state passing on a
record of database tables and on-disk files.  Where a claim depends on
backend code that is not part of the sources at hand, the definition is
modelled from the specification and its doc comment says so.
-/

namespace DocProc

/-! ## JSON values and the frontend API client (frontend/src/api.js) -/

/-- A JSON value as delivered by `response.json()`. -/
inductive JsonVal where
  | null
  | bool (b : Bool)
  | num (n : Int)
  | str (s : String)
  | arr (xs : List JsonVal)
  | obj (fields : List (String × JsonVal))
  deriving Repr

/-- Field lookup on a JSON object, `none` when absent or not an object. -/
def JsonVal.getField : JsonVal → String → Option JsonVal
  | .obj fields, k => (fields.find? (fun p => p.fst == k)).map Prod.snd
  | _, _ => none

/-- JavaScript truthiness of a JSON value (for `error.detail || 'Upload failed'`). -/
def jsTruthy : JsonVal → Bool
  | .null => false
  | .bool b => b
  | .num n => n != 0
  | .str s => s != ""
  | .arr _ => true
  | .obj _ => true

/-- A settled `fetch` response: `ok`, HTTP status, and the parsed JSON body. -/
structure ApiResponse where
  ok : Bool
  status : Nat
  bodyJson : JsonVal
  deriving Repr

/-- Message thrown by `uploadDocument` on a non-ok response:
`error.detail || 'Upload failed'`. -/
def uploadFailMessage (body : JsonVal) : JsonVal :=
  match body.getField "detail" with
  | some v => if jsTruthy v then v else .str "Upload failed"
  | none => .str "Upload failed"

/-- `uploadDocument` from api.js: throws exactly when `!response.ok`,
otherwise resolves with the parsed body. -/
def uploadDocument (r : ApiResponse) : Except JsonVal JsonVal :=
  if r.ok then .ok r.bodyJson else .error (uploadFailMessage r.bodyJson)

/-- `getDocuments` from api.js: returns `response.json()` unconditionally. -/
def getDocuments (r : ApiResponse) : Except JsonVal JsonVal := .ok r.bodyJson

/-- `getDocument` from api.js: returns `response.json()` unconditionally. -/
def getDocument (r : ApiResponse) : Except JsonVal JsonVal := .ok r.bodyJson

/-- `deleteDocument` from api.js: returns `response.json()` unconditionally. -/
def deleteDocument (r : ApiResponse) : Except JsonVal JsonVal := .ok r.bodyJson

/-- `searchDocuments` from api.js: returns `response.json()` unconditionally. -/
def searchDocuments (r : ApiResponse) : Except JsonVal JsonVal := .ok r.bodyJson

/-- `getTags` from api.js: returns `response.json()` unconditionally. -/
def getTags (r : ApiResponse) : Except JsonVal JsonVal := .ok r.bodyJson

/-- `addTagsToDocument` from api.js: returns `response.json()` unconditionally. -/
def addTagsToDocument (r : ApiResponse) : Except JsonVal JsonVal := .ok r.bodyJson

/-- `removeTagFromDocument` from api.js: returns `response.json()` unconditionally. -/
def removeTagFromDocument (r : ApiResponse) : Except JsonVal JsonVal := .ok r.bodyJson

/-! ## Tag colors (frontend/src/utils/tagColors.js) -/

/-- One entry of the `TAG_COLORS` palette. -/
structure TagColor where
  bg : String
  text : String
  deriving Repr, DecidableEq

/-- The ten-entry `TAG_COLORS` array. -/
def TAG_COLORS : List TagColor :=
  [ ⟨"#e8f4f8", "#2c3e50"⟩
  , ⟨"#f0e8f8", "#2c3e50"⟩
  , ⟨"#e8f8f0", "#2c3e50"⟩
  , ⟨"#f8f0e8", "#2c3e50"⟩
  , ⟨"#f8e8f0", "#2c3e50"⟩
  , ⟨"#f8f8e8", "#2c3e50"⟩
  , ⟨"#e8f0f8", "#2c3e50"⟩
  , ⟨"#f0f8e8", "#2c3e50"⟩
  , ⟨"#f8e8e8", "#2c3e50"⟩
  , ⟨"#e8e8f8", "#2c3e50"⟩ ]

/-- JavaScript `ToInt32`: wrap an integer into the range `[-2^31, 2^31)`. -/
def toInt32 (n : Int) : Int := (n + 2 ^ 31) % 2 ^ 32 - 2 ^ 31

/-- One iteration of the `hashString` loop:
`hash = ((hash << 5) - hash) + char; hash = hash & hash`.
The shift is a 32-bit shift and `hash & hash` truncates to a signed
32-bit integer. -/
def hashStep (hash : Int) (char : Nat) : Int :=
  toInt32 (toInt32 (hash * 32) - hash + char)

/-- `hashString` from tagColors.js: fold `hashStep` over the character
codes starting from 0, then `Math.abs`. -/
def hashString (str : String) : Int :=
  ((str.data.map Char.toNat).foldl hashStep 0).natAbs

/-- `getTagColor` from tagColors.js: index `TAG_COLORS` at
`hashString(tagName) % TAG_COLORS.length` (JS array indexing, `none`
standing for `undefined` when out of range). -/
def getTagColor (tagName : String) : Option TagColor :=
  TAG_COLORS.get? (hashString tagName % TAG_COLORS.length).toNat

/-! ## String helpers shared by the backend embedding -/

/-- Character-wise lower-casing of a string. -/
def strLower (s : String) : String := ⟨s.data.map Char.toLower⟩

/-- Does `n` match the front of `h` exactly? -/
def leadMatch : List Char → List Char → Bool
  | [], _ => true
  | _ :: _, [] => false
  | a :: n, b :: h => a == b && leadMatch n h

/-- Does `n` occur contiguously inside `h`?  (Python's `n in h`.) -/
def subMatch (n : List Char) : List Char → Bool
  | [] => n.isEmpty
  | c :: h => leadMatch n (c :: h) || subMatch n h

/-- Substring containment on strings, Python's `needle in hay`. -/
def strSub (needle hay : String) : Bool := subMatch needle.data hay.data

/-- Components of a POSIX path as parsed by `pathlib`: split on `/`,
dropping empty and `.` components. -/
def pyPathParts (s : String) : List (List Char) :=
  (s.data.splitOn '/').filter (fun p => !(p.isEmpty || p == ['.']))

/-- Python's `Path(s).name`: the last path component, `""` when there is
none. -/
def pyPathName (s : String) : String := ⟨(pyPathParts s).getLastD []⟩

/-- Python's `Path.suffix` on a final component `name`:
`name[i:]` for `i = name.rfind('.')` when `0 < i < len(name) - 1`,
else the empty string. -/
def pySuffix (name : String) : String :=
  let r := name.data.reverse
  let pre := r.takeWhile (fun c => c != '.')
  if pre.length = r.length then ""
  else if pre.length = 0 then ""
  else if pre.length + 1 = r.length then ""
  else ⟨'.' :: pre.reverse⟩

/-! ## PDF ingestion pipeline (backend/app/routes/documents.py, as quoted
in FINDINGS.md issue 4) -/

/-- The configured upload size ceiling, `50 * 1024 * 1024` bytes. -/
def MAX_FILE_SIZE : Nat := 50 * 1024 * 1024

/-- An HTTP error raised by the backend (`HTTPException(status_code, detail)`). -/
structure HTTPException where
  statusCode : Nat
  detail : String
  deriving Repr, DecidableEq

/-- A `ValidationError` in the spec's taxonomy is a client error reported
with HTTP status 400 or 413. -/
def HTTPException.isValidation (e : HTTPException) : Prop :=
  e.statusCode = 400 ∨ e.statusCode = 413

/-- A stored document row (fields relevant to ingestion). -/
inductive DocStatus where
  | pending
  | processed
  | failed
  deriving Repr, DecidableEq

/-- A document row as produced by the upload endpoint. -/
structure DocRow where
  filename : String
  storedName : String
  size : Nat
  content : Option String
  pageCount : Option Nat
  status : DocStatus
  deriving Repr, DecidableEq

/-- Backend state visible to the upload endpoint: the upload directory's
files and the document rows. -/
structure ServerState where
  disk : List String
  documents : List DocRow
  deriving Repr, DecidableEq

/-- The upload endpoint of documents.py (FINDINGS.md issue 4).  The
extraction collaborator is passed by its outcome for the written file:
`Except.ok (text, pageCount)` or `Except.error message`.  Checks happen in
source order: empty filename, extension, sanitized filename, size; then
the file is written, extraction runs, and on extraction failure the file
is removed and `HTTPException(400, "Failed to process PDF: ...")` is
raised.  On success a processed row is recorded. -/
def ingest (fileName : String) (content : List Nat)
    (extractResult : Except String (String × Nat)) (st : ServerState) :
    ServerState × Except HTTPException DocRow :=
  if fileName = "" then
    (st, .error ⟨400, "No filename provided"⟩)
  else if strLower (pySuffix (pyPathName fileName)) ≠ ".pdf" then
    (st, .error ⟨400, "Only PDF files are allowed"⟩)
  else
    let safeFilename := pyPathName fileName
    if strSub ".." safeFilename || strSub "/" safeFilename || strSub "\\" safeFilename then
      (st, .error ⟨400, "Invalid filename"⟩)
    else if content.length > MAX_FILE_SIZE then
      (st, .error ⟨413, "File size exceeds " ++ toString MAX_FILE_SIZE ++ " bytes"⟩)
    else
      let filePath := safeFilename
      let st1 : ServerState := { st with disk := filePath :: st.disk }
      match extractResult with
      | .error e =>
          ({ st1 with disk := st1.disk.erase filePath },
           .error ⟨400, "Failed to process PDF: " ++ e⟩)
      | .ok (textContent, pageCount) =>
          let row : DocRow :=
            ⟨fileName, filePath, content.length, some textContent, some pageCount, .processed⟩
          ({ st1 with documents := st1.documents ++ [row] }, .ok row)

/-! ## Search (backend/app/routes/search.py, as quoted in FINDINGS.md
issue 1): `SELECT ... WHERE content ILIKE :search_term` with the bound
parameter `%q%`.  SQL LIKE pattern semantics: `%` matches any run of
characters, `_` matches one character, other characters literally;
`ILIKE` compares case-insensitively. -/

/-- Helper for `%` in a LIKE pattern: does the rest of the pattern
(`matchRest`) match some suffix of the text? -/
def likeTail (matchRest : List Char → Bool) : List Char → Bool
  | [] => matchRest []
  | c :: t => matchRest (c :: t) || likeTail matchRest t

/-- Case-insensitive SQL LIKE matching of a pattern against a text. -/
def likeMatch : List Char → List Char → Bool
  | [], t => t.isEmpty
  | a :: p, t =>
    if a = '%' then likeTail (likeMatch p) t
    else
      match t with
      | [] => false
      | c :: t2 => (if a = '_' then true else Char.toLower a == Char.toLower c) && likeMatch p t2

/-- PostgreSQL `s ILIKE pat`. -/
def ilike (s pat : String) : Bool := likeMatch pat.data s.data

/-- Case-insensitive substring containment, the spec's reading of search:
`needle` occurs in `hay` ignoring case. -/
def containsCI (hay needle : String) : Bool :=
  subMatch (needle.data.map Char.toLower) (hay.data.map Char.toLower)

/-- A statement sent to the relational store.  The search endpoint only
ever builds `selectIlikeContent`: the user input is bound as the pattern
parameter, never concatenated into the statement itself. -/
inductive SqlStmt where
  | selectIlikeContent (pat : String)
  | dropDocumentsTable
  deriving Repr, DecidableEq

/-- The relational store as the search endpoint sees it: whether the
`documents` table exists, and its rows. -/
structure SqlDB where
  documentsPresent : Bool
  rows : List DocRow
  deriving Repr, DecidableEq

/-- Execution of a statement by the store: a select filters rows by the
ILIKE pattern without changing anything; a drop removes the table. -/
def execStmt (db : SqlDB) : SqlStmt → Except String (SqlDB × List DocRow)
  | .selectIlikeContent pat =>
      if db.documentsPresent then
        .ok (db, db.rows.filter (fun d =>
          match d.content with
          | some s => ilike s pat
          | none => false))
      else .error "relation documents does not exist"
  | .dropDocumentsTable =>
      if db.documentsPresent then .ok (⟨false, []⟩, [])
      else .error "relation documents does not exist"

/-- The search endpoint (search.py after the fix): execute the fixed
parameterized statement with `%q%` bound for `:search_term`. -/
def searchBackend (db : SqlDB) (q : String) : Except String (SqlDB × List DocRow) :=
  execStmt db (.selectIlikeContent ("%" ++ q ++ "%"))

/-- The upload endpoint's result is a validation failure: an error with
HTTP status 400 or 413. -/
def isValidationFailure : Except HTTPException DocRow → Prop
  | .error e => e.isValidation
  | .ok _ => False

/-! ## The document/tag store (backend models.py and routes, partly
modelled from the spec where the backend source is not available) -/

/-- Whitespace trimming of a character list (both ends), Python's
`str.strip()` on the default whitespace characters. -/
def trimChars (l : List Char) : List Char :=
  ((l.dropWhile Char.isWhitespace).reverse.dropWhile Char.isWhitespace).reverse

/-- Whitespace trimming of a string. -/
def strTrim (s : String) : String := ⟨trimChars s.data⟩

/-- A tag row: `id` primary key and unique `name`. -/
structure Tag where
  id : Nat
  name : String
  deriving Repr, DecidableEq

/-- A document row as the query service sees it. -/
structure DocumentRow where
  id : Nat
  filename : String
  storedName : String
  createdAt : Nat
  status : DocStatus
  deriving Repr, DecidableEq

/-- The relational store: document rows, tag rows, the document-tag
association table, and the upload directory's files. -/
structure Store where
  documents : List DocumentRow
  tags : List Tag
  docTags : List (Nat × Nat)
  disk : List String
  deriving Repr, DecidableEq

/-- Service-level errors of the query and tag services. -/
inductive ServiceErr where
  | notFound
  | validation
  deriving Repr, DecidableEq

/-- A fresh tag id, larger than every existing one. -/
def nextTagId (ts : List Tag) : Nat := (ts.map Tag.id).foldr max 0 + 1

/-- Modelled from the spec: the Tag service's `getOrCreate(name)` — the
backend tag-service source is not among the available files.  Normalizes
`name` (trim whitespace, reject empty), looks the normalized name up
case-insensitively, and returns the existing tag or creates a new row. -/
def getOrCreateTag (st : Store) (name : String) : Except ServiceErr (Store × Tag) :=
  let norm := strTrim name
  if norm = "" then .error .validation
  else
    match st.tags.find? (fun t => strLower t.name == strLower norm) with
    | some t => .ok (st, t)
    | none =>
        let t : Tag := ⟨nextTagId st.tags, norm⟩
        .ok ({ st with tags := st.tags ++ [t] }, t)

/-- Modelled from the spec: one step of `attach` for a single tag name —
get-or-create the tag, then link it to the document unless the pair is
already present (a no-op, not an error). -/
def attachOne (docId : Nat) (st : Store) (name : String) : Except ServiceErr Store :=
  match getOrCreateTag st name with
  | .error e => .error e
  | .ok (st2, t) =>
      if (docId, t.id) ∈ st2.docTags then .ok st2
      else .ok { st2 with docTags := st2.docTags ++ [(docId, t.id)] }

/-- Modelled from the spec: the Tag service's
`attach(documentId, tagNames[])` — fails with `NotFoundError` when the
document does not exist, otherwise processes each name in order. -/
def attachTags (st : Store) (docId : Nat) (names : List String) : Except ServiceErr Store :=
  match st.documents.find? (fun d => d.id == docId) with
  | none => .error .notFound
  | some _ => names.foldlM (attachOne docId) st

/-- The tags attached to a document id, resolved through the association
table. -/
def tagsOfDoc (st : Store) (docId : Nat) : List Tag :=
  (st.docTags.filter (fun p => p.1 == docId)).filterMap
    (fun p => st.tags.find? (fun t => t.id == p.2))

/-- Modelled from the spec: does a document carry a tag whose name equals
`tagName` ignoring case?  (Used by the `GET /documents?tag=` filter; the
backend filter source is not among the available files.) -/
def docHasTag (st : Store) (d : DocumentRow) (tagName : String) : Bool :=
  st.docTags.any (fun p =>
    p.1 == d.id && st.tags.any (fun t => t.id == p.2 && strLower t.name == strLower tagName))

/-- The document list an invocation of `list_documents` draws from: all
rows, or — modelled from the spec — only those carrying the filter tag. -/
def filteredDocs (st : Store) (tagFilter : Option String) : List DocumentRow :=
  match tagFilter with
  | none => st.documents
  | some tn => st.documents.filter (fun d => docHasTag st d tn)

/-- `list_documents` from documents.py (FINDINGS.md issue 7):
`select(Document).offset(skip).limit(limit)` with `limit` defaulting to
100.  The statement carries no `order_by`, so rows come back in stored
order, and the client-supplied `limit` is applied as is. -/
def listDocuments (st : Store) (skip : Nat) (limit : Nat := 100)
    (tagFilter : Option String := none) : List DocumentRow :=
  ((filteredDocs st tagFilter).drop skip).take limit

/-- Modelled from the spec: the query service's `getById(id)` — the full
document with its tags, or `NotFoundError`. -/
def getById (st : Store) (docId : Nat) : Except ServiceErr (DocumentRow × List Tag) :=
  match st.documents.find? (fun d => d.id == docId) with
  | none => .error .notFound
  | some d => .ok (d, tagsOfDoc st docId)

/-- Modelled from the spec: the query service's `delete(id)` — removes
the document row, cascades its tag associations, removes the on-disk
file if present; fails with `NotFoundError` when the id does not exist.
Tag rows are never deleted. -/
def deleteById (st : Store) (docId : Nat) : Except ServiceErr Store :=
  match st.documents.find? (fun d => d.id == docId) with
  | none => .error .notFound
  | some d =>
      .ok { st with
        documents := st.documents.filter (fun x => !(x.id == docId)),
        docTags := st.docTags.filter (fun p => !(p.1 == docId)),
        disk := st.disk.erase d.storedName }

/-- The Tag service's `listAll()`. -/
def listAllTags (st : Store) : List Tag := st.tags

/-- A query sent to the storage layer by the listing endpoint. -/
inductive StoreQuery where
  | selectDocumentsPage (skip limit : Nat)
  | selectTagsForDocIds (ids : List Nat)
  deriving Repr, DecidableEq

/-- Modelled from the spec and FINDINGS.md issue 5: the listing endpoint
with eager loading — one query for the page of documents, one bulk query
for the tags of every returned document (`selectinload`), never one
query per document.  Returns the page paired with its tags and the list
of issued queries. -/
def listWithTags (st : Store) (skip limit : Nat) :
    List (DocumentRow × List Tag) × List StoreQuery :=
  let page := (st.documents.drop skip).take limit
  (page.map (fun d => (d, tagsOfDoc st d.id)),
   [StoreQuery.selectDocumentsPage skip limit,
    StoreQuery.selectTagsForDocIds (page.map DocumentRow.id)])

/-- The result of attaching `[n1]` and then `[n2]` to a document. -/
def afterTwoAttaches (st : Store) (docId : Nat) (n1 n2 : String) : Except ServiceErr Store :=
  attachTags st docId [n1] >>= fun s => attachTags s docId [n2]

/-- Both attaches succeeded and the document carries exactly one
association afterwards. -/
def exactlyOneTagFor : Except ServiceErr Store → Nat → Prop
  | .ok s, d => (s.docTags.filter (fun p => p.1 == d)).length = 1
  | .error _, _ => False

/-! ## Document status lifecycle (modelled from the spec) -/

/-- Modelled from the spec: the allowed status transitions — a status may
stay put, and `pending` may move to `processed` or to `failed`; terminal
statuses never change. -/
inductive StatusStep : DocStatus → DocStatus → Prop where
  | stay (s : DocStatus) : StatusStep s s
  | process : StatusStep .pending .processed
  | fail : StatusStep .pending .failed

/-- Modelled from the spec: a document's status history — created
`pending` at upload acceptance, every later observation one allowed step
after the previous one. -/
def ValidTrace (f : Nat → DocStatus) : Prop :=
  f 0 = .pending ∧ ∀ n, StatusStep (f n) (f (n + 1))

/-- A concrete status history: `pending` at time 0, `processed` after. -/
def trace01 : Nat → DocStatus := fun n => if n = 0 then .pending else .processed

/-! ## Theorems for the frontend claims -/

/-- C9: in the frontend API client, `uploadDocument` is the only function
that rejects on an HTTP error: it throws exactly when `response.ok` is
false, with the body's `detail` field as the message (falling back to
"Upload failed" when `detail` is absent or falsy); every other client
function returns the parsed JSON body regardless of the HTTP status, so a
404 from `getDocument` or `deleteDocument` is delivered as ordinary data,
never as a thrown error. -/
theorem c9_upload_only_rejects (r : ApiResponse) :
    ((∃ m, uploadDocument r = .error m) ↔ r.ok = false)
    ∧ (r.ok = true → uploadDocument r = .ok r.bodyJson)
    ∧ (∀ s, r.ok = false → r.bodyJson.getField "detail" = some (.str s) → s ≠ "" →
        uploadDocument r = .error (.str s))
    ∧ getDocuments r = .ok r.bodyJson
    ∧ getDocument r = .ok r.bodyJson
    ∧ deleteDocument r = .ok r.bodyJson
    ∧ searchDocuments r = .ok r.bodyJson
    ∧ getTags r = .ok r.bodyJson
    ∧ addTagsToDocument r = .ok r.bodyJson
    ∧ removeTagFromDocument r = .ok r.bodyJson := by
  refine ⟨?_, ?_, ?_, rfl, rfl, rfl, rfl, rfl, rfl, rfl⟩
  · constructor
    · rintro ⟨m, hm⟩
      by_contra hok
      simp only [Bool.not_eq_false] at hok
      simp [uploadDocument, hok] at hm
    · intro hok
      exact ⟨uploadFailMessage r.bodyJson, by simp [uploadDocument, hok]⟩
  · intro hok
    simp [uploadDocument, hok]
  · intro s hok hdetail hs
    simp [uploadDocument, hok, uploadFailMessage, hdetail, jsTruthy, hs]

/-- C9 witness: a 404 response makes `uploadDocument` reject with the
body's `detail`, while `deleteDocument` returns the same body as data. -/
theorem c9_upload_only_rejects_witness :
    uploadDocument ⟨false, 404, .obj [("detail", .str "Document not found")]⟩
      = .error (.str "Document not found")
    ∧ deleteDocument ⟨false, 404, .obj [("detail", .str "Document not found")]⟩
      = .ok (.obj [("detail", .str "Document not found")]) := by
  have h := c9_upload_only_rejects ⟨false, 404, .obj [("detail", .str "Document not found")]⟩
  exact ⟨h.2.2.1 "Document not found" rfl rfl (by decide), h.2.2.2.2.2.1⟩

/-- C10: `getTagColor` is total and deterministic: for every string
(including the empty one) `hashString` is non-negative, the index
`hashString % 10` lies within the ten-entry `TAG_COLORS` array, so
`getTagColor` returns a valid color, and equal tag names get the same
color. -/
theorem c10_getTagColor_total (s : String) :
    0 ≤ hashString s
    ∧ (hashString s % (TAG_COLORS.length : Int)).toNat < TAG_COLORS.length
    ∧ (∃ c, getTagColor s = some c)
    ∧ (∀ t, s = t → getTagColor s = getTagColor t) := by
  have hlen : (TAG_COLORS.length : Int) = 10 := by decide
  have hnonneg : 0 ≤ hashString s := by
    unfold hashString; exact Int.natCast_nonneg _
  have hidx : (hashString s % (TAG_COLORS.length : Int)).toNat < TAG_COLORS.length := by
    rw [hlen]
    have h10 : (0 : Int) < 10 := by decide
    have hmod : hashString s % (10 : Int) < 10 := Int.emod_lt_of_pos _ h10
    have hmodnn : 0 ≤ hashString s % (10 : Int) := Int.emod_nonneg _ (by decide)
    omega
  refine ⟨hnonneg, hidx, ?_, fun t h => by rw [h]⟩
  have hidx' : (hashString s % (TAG_COLORS.length : Int)).toNat < TAG_COLORS.length := hidx
  exact ⟨TAG_COLORS.get ⟨_, hidx'⟩, List.get?_eq_get hidx'⟩

/-- C2: for every upload request, `ingest` fails with a `ValidationError`
whenever the filename is empty, the computed extension is not `.pdf`, the
sanitized filename contains `..` or a path separator, or the byte length
exceeds the configured ceiling; the server state is unchanged (no file is
written) and the result does not depend on the extraction collaborator
(no extraction is attempted). -/
theorem c2_upload_validation (fileName : String) (content : List Nat)
    (h : fileName = ""
      ∨ strLower (pySuffix (pyPathName fileName)) ≠ ".pdf"
      ∨ (strSub ".." (pyPathName fileName) || strSub "/" (pyPathName fileName)
          || strSub "\\" (pyPathName fileName)) = true
      ∨ MAX_FILE_SIZE < content.length) :
    ∀ (ex ex2 : Except String (String × Nat)) (st : ServerState),
      (ingest fileName content ex st).1 = st
      ∧ isValidationFailure (ingest fileName content ex st).2
      ∧ ingest fileName content ex st = ingest fileName content ex2 st := by
  intro ex ex2 st
  by_cases h1 : fileName = ""
  · simp [ingest, h1, isValidationFailure, HTTPException.isValidation]
  · by_cases h2 : strLower (pySuffix (pyPathName fileName)) = ".pdf"
    · by_cases h3 : (strSub ".." (pyPathName fileName) || strSub "/" (pyPathName fileName)
          || strSub "\\" (pyPathName fileName)) = true
      · simp [ingest, h1, h2, h3, isValidationFailure, HTTPException.isValidation]
      · have h4 : MAX_FILE_SIZE < content.length := by
          rcases h with h | h | h | h
          · exact absurd h h1
          · exact absurd h2 h
          · exact absurd h h3
          · exact h
        simp [ingest, h1, h2, h3, h4, isValidationFailure, HTTPException.isValidation]
    · simp [ingest, h1, h2, isValidationFailure, HTTPException.isValidation]

/-- C2 witness: uploading `notes.txt` is rejected as a validation error
regardless of the extraction collaborator, with the state untouched. -/
theorem c2_upload_validation_witness :
    (ingest "notes.txt" [10] (.ok ("x", 1)) ⟨[], []⟩).1 = (⟨[], []⟩ : ServerState)
    ∧ isValidationFailure (ingest "notes.txt" [10] (.ok ("x", 1)) ⟨[], []⟩).2
    ∧ ingest "notes.txt" [10] (.ok ("x", 1)) ⟨[], []⟩
        = ingest "notes.txt" [10] (.error "boom") ⟨[], []⟩ :=
  c2_upload_validation "notes.txt" [10]
    (Or.inr (Or.inl (by decide))) (.ok ("x", 1)) (.error "boom") ⟨[], []⟩

/-- C1 counterexample: a valid `.pdf` upload whose extraction fails makes
the upload call itself fail with `HTTPException(400, ...)` — the request
does not succeed, and no document row (in particular none with status
`failed`) is recorded. -/
theorem c1_counterexample :
    ingest "report.pdf" [37, 80, 68, 70] (.error "cannot open file") ⟨[], []⟩
      = (⟨[], []⟩, .error ⟨400, "Failed to process PDF: cannot open file"⟩) := by
  rfl

/-- C1 amended: for every upload passing validation whose extraction then
fails, the pipeline deletes the on-disk file (the final state equals the
initial one) and surfaces the extraction failure as a failed HTTP request
with status 400 and detail `"Failed to process PDF: ..."`; no document
row with status `failed` is stored. -/
theorem c1_extraction_failure_fails_request (fileName : String) (content : List Nat)
    (msg : String) (st : ServerState)
    (h1 : fileName ≠ "")
    (h2 : strLower (pySuffix (pyPathName fileName)) = ".pdf")
    (h3 : (strSub ".." (pyPathName fileName) || strSub "/" (pyPathName fileName)
        || strSub "\\" (pyPathName fileName)) = false)
    (h4 : content.length ≤ MAX_FILE_SIZE) :
    ingest fileName content (.error msg) st
      = (st, .error ⟨400, "Failed to process PDF: " ++ msg⟩) := by
  simp [ingest, h1, h2, h3, Nat.not_lt.mpr h4, List.erase_cons_head]

/-- C1 amended witness: a concrete failing extraction after a valid write
returns HTTP 400 and restores the state. -/
theorem c1_extraction_failure_fails_request_witness :
    ingest "scan.pdf" [1, 2, 3] (.error "boom") ⟨["other.pdf"], []⟩
      = (⟨["other.pdf"], []⟩, .error ⟨400, "Failed to process PDF: boom"⟩) :=
  c1_extraction_failure_fails_request "scan.pdf" [1, 2, 3] "boom" ⟨["other.pdf"], []⟩
    (by decide) (by decide) (by decide) (by decide)

/-- C10 witness: for the concrete tag name "urgent" the hash is
non-negative, the palette index is in range, and equal names get equal
colors. -/
theorem c10_getTagColor_total_witness :
    0 ≤ hashString "urgent"
    ∧ (hashString "urgent" % (TAG_COLORS.length : Int)).toNat < TAG_COLORS.length
    ∧ getTagColor "urgent" = getTagColor "urgent" := by
  have h := c10_getTagColor_total "urgent"
  exact ⟨h.1, h.2.1, h.2.2.2 "urgent" rfl⟩

/-! ### LIKE-pattern lemmas for the search claim -/

theorem likeTail_eq_true_iff (f : List Char → Bool) (t : List Char) :
    likeTail f t = true ↔ ∃ i, f (t.drop i) = true := by
  induction t with
  | nil =>
      simp only [likeTail]
      constructor
      · intro h; exact ⟨0, h⟩
      · rintro ⟨i, hi⟩; simpa using hi
  | cons c t ih =>
      simp only [likeTail, Bool.or_eq_true, ih]
      constructor
      · rintro (h | ⟨i, hi⟩)
        · exact ⟨0, h⟩
        · exact ⟨i + 1, hi⟩
      · rintro ⟨i, hi⟩
        cases i with
        | zero => exact Or.inl hi
        | succ i => exact Or.inr ⟨i, hi⟩

theorem leadMatch_nil_right (n : List Char) : leadMatch n [] = n.isEmpty := by
  cases n <;> rfl

theorem subMatch_eq_true_iff (n h : List Char) :
    subMatch n h = true ↔ ∃ i, leadMatch n (h.drop i) = true := by
  induction h with
  | nil =>
      simp only [subMatch]
      constructor
      · intro hn
        refine ⟨0, ?_⟩
        rw [List.drop_nil, leadMatch_nil_right]
        exact hn
      · rintro ⟨i, hi⟩
        rw [List.drop_nil, leadMatch_nil_right] at hi
        exact hi
  | cons c h ih =>
      simp only [subMatch, Bool.or_eq_true, ih]
      constructor
      · rintro (hl | ⟨i, hi⟩)
        · exact ⟨0, hl⟩
        · exact ⟨i + 1, hi⟩
      · rintro ⟨i, hi⟩
        cases i with
        | zero => exact Or.inl hi
        | succ i => exact Or.inr ⟨i, hi⟩

theorem likeTail_isEmpty (t : List Char) : likeTail (fun u => u.isEmpty) t = true := by
  induction t with
  | nil => rfl
  | cons c t ih => simp [likeTail, ih]

theorem likeMatch_literal (p : List Char) (hp : ∀ c ∈ p, c ≠ '%' ∧ c ≠ '_') (t : List Char) :
    likeMatch (p ++ ['%']) t = leadMatch (p.map Char.toLower) (t.map Char.toLower) := by
  induction p generalizing t with
  | nil =>
      simp only [List.nil_append, List.map_nil]
      have h1 : likeMatch ['%'] t = likeTail (likeMatch []) t := by
        simp [likeMatch]
      have h2 : likeTail (likeMatch []) t = true := by
        have : likeMatch [] = fun u : List Char => u.isEmpty := by
          funext u; simp [likeMatch]
        rw [this]; exact likeTail_isEmpty t
      rw [h1, h2]
      rfl
  | cons a p ih =>
      have ha := hp a (List.mem_cons_self _ _)
      have hp' : ∀ c ∈ p, c ≠ '%' ∧ c ≠ '_' := fun c hc => hp c (List.mem_cons_of_mem _ hc)
      cases t with
      | nil =>
          simp [likeMatch, ha.1, leadMatch]
      | cons c t =>
          simp only [List.cons_append, List.map_cons]
          rw [show likeMatch (a :: (p ++ ['%'])) (c :: t)
                = ((if a = '_' then true else Char.toLower a == Char.toLower c)
                    && likeMatch (p ++ ['%']) t) by simp [likeMatch, ha.1]]
          rw [if_neg ha.2, ih hp' t]
          rfl

theorem ilike_wildcard_free (q : String) (hq : ∀ c ∈ q.data, c ≠ '%' ∧ c ≠ '_')
    (s : String) : ilike s ("%" ++ q ++ "%") = containsCI s q := by
  have hdata : ("%" ++ q ++ "%").data = '%' :: (q.data ++ ['%']) := by
    show (("%" ++ q) ++ "%").data = _
    rw [String.data_append, String.data_append]
    rfl
  unfold ilike containsCI
  rw [hdata]
  have hstep : likeMatch ('%' :: (q.data ++ ['%'])) s.data
      = likeTail (likeMatch (q.data ++ ['%'])) s.data := by
    simp [likeMatch]
  rw [hstep]
  apply Bool.eq_iff_iff.mpr
  rw [likeTail_eq_true_iff, subMatch_eq_true_iff]
  constructor
  · rintro ⟨i, hi⟩
    refine ⟨i, ?_⟩
    rw [likeMatch_literal q.data hq (s.data.drop i)] at hi
    rwa [List.map_drop] at hi
  · rintro ⟨i, hi⟩
    refine ⟨i, ?_⟩
    rw [likeMatch_literal q.data hq (s.data.drop i)]
    rwa [List.map_drop]

/-- C4 counterexample: a query containing the LIKE wildcard `_` is not
matched as a literal substring: `search("a_c")` on a store whose only
document has content `"abc"` returns that document, although `"abc"`
does not contain `"a_c"` as a (case-insensitive) substring. -/
theorem c4_counterexample :
    searchBackend ⟨true, [⟨"a.pdf", "a.pdf", 3, some "abc", some 1, .processed⟩]⟩ "a_c"
      = .ok (⟨true, [⟨"a.pdf", "a.pdf", 3, some "abc", some 1, .processed⟩]⟩,
             [⟨"a.pdf", "a.pdf", 3, some "abc", some 1, .processed⟩])
    ∧ containsCI "abc" "a_c" = false := by
  exact ⟨rfl, rfl⟩

/-- C4 amended: `search(q)` executes the fixed parameterized statement
with `%q%` bound as data, so it never errors and leaves the schema and
all rows unchanged, returning exactly the documents whose content
matches `%q%` under case-insensitive LIKE semantics; whenever `q`
contains no LIKE wildcard (`%` or `_`) — in particular for
`q = "DROP TABLE"` — these are exactly the documents whose content
contains `q` as a case-insensitive substring. -/
theorem c4_search_parameterized (db : SqlDB) (q : String)
    (hschema : db.documentsPresent = true) :
    searchBackend db q
      = .ok (db, db.rows.filter (fun d =>
          match d.content with
          | some s => ilike s ("%" ++ q ++ "%")
          | none => false))
    ∧ ((∀ c ∈ q.data, c ≠ '%' ∧ c ≠ '_') →
        searchBackend db q
          = .ok (db, db.rows.filter (fun d =>
              match d.content with
              | some s => containsCI s q
              | none => false))) := by
  constructor
  · simp [searchBackend, execStmt, hschema]
  · intro hq
    have hfilter :
        db.rows.filter (fun d =>
          match d.content with
          | some s => ilike s ("%" ++ q ++ "%")
          | none => false)
        = db.rows.filter (fun d =>
            match d.content with
            | some s => containsCI s q
            | none => false) := by
      refine List.filter_congr ?_
      intro d _
      cases hd : d.content with
      | none => rfl
      | some s => simp [ilike_wildcard_free q hq s]
    simp [searchBackend, execStmt, hschema, hfilter]

/-- C4 witness: on a concrete store, `search("DROP TABLE")` succeeds,
changes nothing, and returns the ILIKE matches, which coincide with the
case-insensitive substring matches. -/
theorem c4_search_parameterized_witness :
    searchBackend ⟨true, [⟨"a.pdf", "a.pdf", 3, some "abc", some 1, .processed⟩]⟩ "DROP TABLE"
      = .ok (⟨true, [⟨"a.pdf", "a.pdf", 3, some "abc", some 1, .processed⟩]⟩,
          ([⟨"a.pdf", "a.pdf", 3, some "abc", some 1, .processed⟩] : List DocRow).filter (fun d =>
            match d.content with
            | some s => ilike s ("%" ++ "DROP TABLE" ++ "%")
            | none => false))
    ∧ searchBackend ⟨true, [⟨"a.pdf", "a.pdf", 3, some "abc", some 1, .processed⟩]⟩ "DROP TABLE"
      = .ok (⟨true, [⟨"a.pdf", "a.pdf", 3, some "abc", some 1, .processed⟩]⟩,
          ([⟨"a.pdf", "a.pdf", 3, some "abc", some 1, .processed⟩] : List DocRow).filter (fun d =>
            match d.content with
            | some s => containsCI s "DROP TABLE"
            | none => false)) := by
  have h := c4_search_parameterized
    ⟨true, [⟨"a.pdf", "a.pdf", 3, some "abc", some 1, .processed⟩]⟩ "DROP TABLE" rfl
  exact ⟨h.1, h.2 (by decide)⟩

/-! ### Status lifecycle (C6) -/

theorem statusStep_cases (a b : DocStatus) (h : StatusStep a b) :
    a = b ∨ (a = .pending ∧ (b = .processed ∨ b = .failed)) := by
  cases h with
  | stay s => exact Or.inl rfl
  | process => exact Or.inr ⟨rfl, Or.inl rfl⟩
  | fail => exact Or.inr ⟨rfl, Or.inr rfl⟩

theorem statusStep_absorb (a b : DocStatus) (h : StatusStep a b)
    (hne : a ≠ DocStatus.pending) : b = a := by
  cases h with
  | stay s => rfl
  | process => exact absurd rfl hne
  | fail => exact absurd rfl hne

/-- C6: every status history starts at `pending`; the only proper
transitions are `pending → processed` and `pending → failed`; a terminal
status is never left; and any observation of a terminal status lies
after the one transition that set it. -/
theorem c6_status_lifecycle (f : Nat → DocStatus) (hf : ValidTrace f) :
    f 0 = DocStatus.pending
    ∧ (∀ n, f n ≠ f (n + 1) →
        f n = DocStatus.pending
        ∧ (f (n + 1) = DocStatus.processed ∨ f (n + 1) = DocStatus.failed))
    ∧ (∀ i j, i ≤ j → f i ≠ DocStatus.pending → f j = f i)
    ∧ (∀ i, f i ≠ DocStatus.pending →
        ∃ k, k < i ∧ f k = DocStatus.pending ∧ f (k + 1) = f i) := by
  refine ⟨hf.1, ?_, ?_, ?_⟩
  · intro n hne
    rcases statusStep_cases _ _ (hf.2 n) with h | h
    · exact absurd h hne
    · exact h
  · intro i j hij hne
    induction j with
    | zero =>
        have : i = 0 := Nat.le_zero.mp hij
        subst this; rfl
    | succ j ih =>
        by_cases hij' : i ≤ j
        · have hj := ih hij'
          have hne' : f j ≠ DocStatus.pending := by rw [hj]; exact hne
          rw [statusStep_absorb _ _ (hf.2 j) hne', hj]
        · have : i = j + 1 := by omega
          subst this; rfl
  · intro i hne
    induction i with
    | zero => exact absurd hf.1 hne
    | succ i ih =>
        by_cases hp : f i = DocStatus.pending
        · exact ⟨i, Nat.lt_succ_self i, hp, rfl⟩
        · obtain ⟨k, hk, hkp, hks⟩ := ih hp
          have habs : f (i + 1) = f i := statusStep_absorb _ _ (hf.2 i) hp
          exact ⟨k, Nat.lt_trans hk (Nat.lt_succ_self i), hkp, by rw [habs, hks]⟩

/-- C6 witness: on the concrete history `pending, processed, processed, ...`
the terminal status is absorbed: the observation at time 2 equals the one
at time 1. -/
theorem c6_status_lifecycle_witness : trace01 2 = trace01 1 := by
  have hvalid : ValidTrace trace01 := by
    refine ⟨rfl, fun n => ?_⟩
    cases n with
    | zero => exact StatusStep.process
    | succ m => exact StatusStep.stay _
  exact (c6_status_lifecycle trace01 hvalid).2.2.1 1 2 (by omega) (by decide)

/-! ### Pagination (C5) -/

/-- C5 counterexample: `list` applies no ordering and no server-side
ceiling.  On a store holding an older document (created at 1) before a
newer one (created at 2), `list(0, 100)` returns the older document
first — not most-recent-first; and on a store of 150 documents,
`list(0, 200)` returns 150 documents, above the claimed hard ceiling of
100. -/
theorem c5_counterexample :
    listDocuments
        ⟨[⟨1, "a.pdf", "a.pdf", 1, .processed⟩, ⟨2, "b.pdf", "b.pdf", 2, .processed⟩],
         [], [], []⟩ 0 100 none
      = [⟨1, "a.pdf", "a.pdf", 1, .processed⟩, ⟨2, "b.pdf", "b.pdf", 2, .processed⟩]
    ∧ (1 : Nat) < 2
    ∧ (listDocuments
        ⟨(List.range 150).map (fun i => ⟨i, "f.pdf", "f.pdf", i, DocStatus.processed⟩),
         [], [], []⟩ 0 200 none).length = 150 := by
  refine ⟨rfl, by decide, ?_⟩
  simp [listDocuments, filteredDocs]

/-- C5 amended: `list(skip, limit, tagFilter?)` returns the stored
documents in stored order (no ordering by creation time is applied):
position `i` of the result is position `skip + i` of the (optionally
tag-filtered, case-insensitively) document list; at most `limit`
documents are returned, `limit` defaulting to 100, with no server-side
ceiling beyond the client-supplied value; with a tag filter only
documents carrying a matching tag are returned. -/
theorem c5_list_pagination (st : Store) (skip limit : Nat) (tf : Option String) :
    (listDocuments st skip limit tf).length ≤ limit
    ∧ (∀ i, i < limit →
        (listDocuments st skip limit tf)[i]? = (filteredDocs st tf)[skip + i]?)
    ∧ List.Sublist (listDocuments st skip limit tf) (filteredDocs st tf)
    ∧ List.Sublist (filteredDocs st tf) st.documents
    ∧ (listDocuments st skip).length ≤ 100
    ∧ (∀ tn d, tf = some tn → d ∈ listDocuments st skip limit tf →
        docHasTag st d tn = true) := by
  refine ⟨?_, ?_, ?_, ?_, ?_, ?_⟩
  · simp [listDocuments]
  · intro i hi
    rw [listDocuments, List.getElem?_take_of_lt hi, List.getElem?_drop]
  · exact ((List.take_sublist _ _).trans (List.drop_sublist _ _))
  · cases tf with
    | none => simp [filteredDocs]
    | some tn => exact List.filter_sublist _
  · simp [listDocuments]
  · intro tn d htf hd
    subst htf
    have hd1 : d ∈ (filteredDocs st (some tn)).drop skip :=
      List.mem_of_mem_take hd
    have hd2 : d ∈ filteredDocs st (some tn) := List.mem_of_mem_drop hd1
    simp only [filteredDocs, List.mem_filter] at hd2
    exact hd2.2

/-- C5 witness: concrete pagination — on a four-document store,
`list(skip=1, limit=2)` returns at most two documents, its first element
is the stored list's second, and with a tag filter a returned document
carries the tag. -/
theorem c5_list_pagination_witness :
    (listDocuments
        ⟨[⟨1, "a.pdf", "a.pdf", 1, .processed⟩, ⟨2, "b.pdf", "b.pdf", 2, .processed⟩,
          ⟨3, "c.pdf", "c.pdf", 3, .processed⟩, ⟨4, "d.pdf", "d.pdf", 4, .processed⟩],
         [⟨1, "Work"⟩], [(1, 1), (2, 1)], []⟩ 1 2 none).length ≤ 2
    ∧ (listDocuments
        ⟨[⟨1, "a.pdf", "a.pdf", 1, .processed⟩, ⟨2, "b.pdf", "b.pdf", 2, .processed⟩,
          ⟨3, "c.pdf", "c.pdf", 3, .processed⟩, ⟨4, "d.pdf", "d.pdf", 4, .processed⟩],
         [⟨1, "Work"⟩], [(1, 1), (2, 1)], []⟩ 1 2 none)[0]?
      = (filteredDocs
        ⟨[⟨1, "a.pdf", "a.pdf", 1, .processed⟩, ⟨2, "b.pdf", "b.pdf", 2, .processed⟩,
          ⟨3, "c.pdf", "c.pdf", 3, .processed⟩, ⟨4, "d.pdf", "d.pdf", 4, .processed⟩],
         [⟨1, "Work"⟩], [(1, 1), (2, 1)], []⟩ none)[1 + 0]?
    ∧ docHasTag
        ⟨[⟨1, "a.pdf", "a.pdf", 1, .processed⟩, ⟨2, "b.pdf", "b.pdf", 2, .processed⟩,
          ⟨3, "c.pdf", "c.pdf", 3, .processed⟩, ⟨4, "d.pdf", "d.pdf", 4, .processed⟩],
         [⟨1, "Work"⟩], [(1, 1), (2, 1)], []⟩ ⟨2, "b.pdf", "b.pdf", 2, .processed⟩ "work"
      = true := by
  have h := c5_list_pagination
    ⟨[⟨1, "a.pdf", "a.pdf", 1, .processed⟩, ⟨2, "b.pdf", "b.pdf", 2, .processed⟩,
      ⟨3, "c.pdf", "c.pdf", 3, .processed⟩, ⟨4, "d.pdf", "d.pdf", 4, .processed⟩],
     [⟨1, "Work"⟩], [(1, 1), (2, 1)], []⟩ 1 2 (some "work")
  have h0 := c5_list_pagination
    ⟨[⟨1, "a.pdf", "a.pdf", 1, .processed⟩, ⟨2, "b.pdf", "b.pdf", 2, .processed⟩,
      ⟨3, "c.pdf", "c.pdf", 3, .processed⟩, ⟨4, "d.pdf", "d.pdf", 4, .processed⟩],
     [⟨1, "Work"⟩], [(1, 1), (2, 1)], []⟩ 1 2 none
  refine ⟨h0.1, h0.2.1 0 (by decide), ?_⟩
  exact h.2.2.2.2.2 "work" ⟨2, "b.pdf", "b.pdf", 2, .processed⟩ rfl (by decide)

/-! ### Delete and fetch (C7) -/

/-- C7: for an id not in the store, `getById` and `delete` both fail with
`NotFoundError`; after a successful delete, `getById` fails with
`NotFoundError`, the row and all its tag associations are gone and the
stored file is erased from disk, while every tag row survives: `listAll`
returns the same tags as before. -/
theorem c7_delete_semantics (st : Store) (docId : Nat) :
    ((∀ d ∈ st.documents, d.id ≠ docId) →
        getById st docId = .error .notFound ∧ deleteById st docId = .error .notFound)
    ∧ (∀ st', deleteById st docId = .ok st' →
        getById st' docId = .error .notFound
        ∧ (∀ d ∈ st'.documents, d.id ≠ docId)
        ∧ (∀ p ∈ st'.docTags, p.1 ≠ docId)
        ∧ listAllTags st' = listAllTags st
        ∧ (∃ d, st.documents.find? (fun x => x.id == docId) = some d
            ∧ st'.disk = st.disk.erase d.storedName)) := by
  constructor
  · intro hmiss
    have hfind : st.documents.find? (fun d => d.id == docId) = none := by
      rw [List.find?_eq_none]
      intro d hd
      simpa using hmiss d hd
    constructor
    · simp [getById, hfind]
    · simp [deleteById, hfind]
  · intro st' hdel
    cases hfind : st.documents.find? (fun d => d.id == docId) with
    | none => simp [deleteById, hfind] at hdel
    | some d =>
        simp only [deleteById, hfind] at hdel
        have hst' : st' = { st with
            documents := st.documents.filter (fun x => !(x.id == docId)),
            docTags := st.docTags.filter (fun p => !(p.1 == docId)),
            disk := st.disk.erase d.storedName } := by
          cases hdel
          rfl
        subst hst'
        refine ⟨?_, ?_, ?_, rfl, ?_⟩
        · have hnone : (st.documents.filter (fun x => !(x.id == docId))).find?
              (fun x => x.id == docId) = none := by
            rw [List.find?_eq_none]
            intro x hx
            have := (List.mem_filter.mp hx).2
            simpa using this
          simp [getById, hnone]
        · intro x hx
          have := (List.mem_filter.mp hx).2
          simpa using this
        · intro p hp
          have := (List.mem_filter.mp hp).2
          simpa using this
        · exact ⟨d, rfl, rfl⟩

/-- C7 witness: deleting document 1 from a concrete store removes the
row, its association and its file, getById then fails, and the tag is
still listed by `listAll`. -/
theorem c7_delete_semantics_witness :
    getById ⟨[], [⟨1, "invoice"⟩], [], []⟩ 1 = .error .notFound
    ∧ deleteById ⟨[], [⟨1, "invoice"⟩], [], []⟩ 1 = .error .notFound
    ∧ getById ⟨[], [⟨1, "invoice"⟩], [], ["b.pdf"]⟩ 1 = .error .notFound
    ∧ listAllTags ⟨[], [⟨1, "invoice"⟩], [], ["b.pdf"]⟩
      = listAllTags ⟨[⟨1, "a.pdf", "a.pdf", 1, .processed⟩], [⟨1, "invoice"⟩],
          [(1, 1)], ["a.pdf", "b.pdf"]⟩ := by
  have h1 := (c7_delete_semantics ⟨[], [⟨1, "invoice"⟩], [], []⟩ 1).1
    (by intro d hd; simp at hd)
  have h2 := (c7_delete_semantics ⟨[⟨1, "a.pdf", "a.pdf", 1, .processed⟩], [⟨1, "invoice"⟩],
      [(1, 1)], ["a.pdf", "b.pdf"]⟩ 1).2
    ⟨[], [⟨1, "invoice"⟩], [], ["b.pdf"]⟩ (by rfl)
  exact ⟨h1.1, h1.2, h2.1, h2.2.2.2.1⟩

/-! ### Constant query count (C8) -/

/-- C8: for every store — whatever the number N of stored documents —
`list(skip, limit)` issues exactly two storage queries: one for the page
of documents and one bulk query for the tags of all returned documents;
each returned document carries exactly its associated tags, and the
returned documents are those of `list`. -/
theorem c8_constant_query_count (st : Store) (skip limit : Nat) :
    (listWithTags st skip limit).2.length = 2
    ∧ (∀ pr ∈ (listWithTags st skip limit).1, pr.2 = tagsOfDoc st pr.1.id)
    ∧ (listWithTags st skip limit).1.map Prod.fst = listDocuments st skip limit none := by
  refine ⟨rfl, ?_, ?_⟩
  · intro pr hpr
    simp only [listWithTags, List.mem_map] at hpr
    obtain ⟨d, _, rfl⟩ := hpr
    rfl
  · have hcomp : (Prod.fst ∘ fun d : DocumentRow => (d, tagsOfDoc st d.id))
        = fun d : DocumentRow => d := rfl
    simp [listWithTags, listDocuments, filteredDocs, List.map_map, hcomp]

/-- C8 witness: on a concrete two-document store the listing issues two
queries and pairs the first returned document with its one tag. -/
theorem c8_constant_query_count_witness :
    (listWithTags ⟨[⟨1, "a.pdf", "a.pdf", 1, .processed⟩, ⟨2, "b.pdf", "b.pdf", 2, .processed⟩],
        [⟨1, "Work"⟩], [(1, 1)], []⟩ 0 100).2.length = 2
    ∧ [Tag.mk 1 "Work"]
      = tagsOfDoc ⟨[⟨1, "a.pdf", "a.pdf", 1, .processed⟩, ⟨2, "b.pdf", "b.pdf", 2, .processed⟩],
          [⟨1, "Work"⟩], [(1, 1)], []⟩ 1 := by
  have h := c8_constant_query_count
    ⟨[⟨1, "a.pdf", "a.pdf", 1, .processed⟩, ⟨2, "b.pdf", "b.pdf", 2, .processed⟩],
      [⟨1, "Work"⟩], [(1, 1)], []⟩ 0 100
  exact ⟨h.1, h.2.1 ((⟨1, "a.pdf", "a.pdf", 1, .processed⟩ : DocumentRow), [Tag.mk 1 "Work"])
    (by decide)⟩

/-! ### Character and trimming lemmas for case-insensitive tagging -/

theorem char_eq_of_toNat_eq {c d : Char} (h : c.toNat = d.toNat) : c = d :=
  Char.eq_of_val_eq (UInt32.toNat.inj h)

theorem toNat_toLower_of_upper (c : Char) (h : 65 ≤ c.toNat ∧ c.toNat ≤ 90) :
    (Char.toLower c).toNat = c.toNat + 32 := by
  unfold Char.toLower
  rw [if_pos ⟨h.1, h.2⟩]
  have hv : Nat.isValidChar (c.toNat + 32) := Or.inl (by omega)
  rw [Char.ofNat, dif_pos hv]
  rfl

theorem toLower_eq_self_of_not_upper (c : Char) (h : ¬(65 ≤ c.toNat ∧ c.toNat ≤ 90)) :
    Char.toLower c = c := by
  unfold Char.toLower
  rw [if_neg]
  intro hc
  exact h ⟨hc.1, hc.2⟩

theorem char_isWhitespace_toNat (c : Char) :
    c.isWhitespace = (c.toNat == 32 || c.toNat == 9 || c.toNat == 13 || c.toNat == 10) := by
  unfold Char.isWhitespace
  apply Bool.eq_iff_iff.mpr
  simp only [Bool.or_eq_true, decide_eq_true_eq, beq_iff_eq]
  constructor
  · rintro (((h | h) | h) | h) <;> subst h <;> decide
  · rintro (((h | h) | h) | h)
    · exact Or.inl (Or.inl (Or.inl (char_eq_of_toNat_eq h)))
    · exact Or.inl (Or.inl (Or.inr (char_eq_of_toNat_eq h)))
    · exact Or.inl (Or.inr (char_eq_of_toNat_eq h))
    · exact Or.inr (char_eq_of_toNat_eq h)

theorem isWhitespace_toLower (c : Char) :
    (Char.toLower c).isWhitespace = c.isWhitespace := by
  by_cases h : 65 ≤ c.toNat ∧ c.toNat ≤ 90
  · rw [char_isWhitespace_toNat, char_isWhitespace_toNat, toNat_toLower_of_upper c h]
    have h1 : (c.toNat + 32 == 32) = false := by
      simp only [beq_eq_false_iff_ne, ne_eq]; omega
    have h2 : (c.toNat + 32 == 9) = false := by
      simp only [beq_eq_false_iff_ne, ne_eq]; omega
    have h3 : (c.toNat + 32 == 13) = false := by
      simp only [beq_eq_false_iff_ne, ne_eq]; omega
    have h4 : (c.toNat + 32 == 10) = false := by
      simp only [beq_eq_false_iff_ne, ne_eq]; omega
    have h5 : (c.toNat == 32) = false := by
      simp only [beq_eq_false_iff_ne, ne_eq]; omega
    have h6 : (c.toNat == 9) = false := by
      simp only [beq_eq_false_iff_ne, ne_eq]; omega
    have h7 : (c.toNat == 13) = false := by
      simp only [beq_eq_false_iff_ne, ne_eq]; omega
    have h8 : (c.toNat == 10) = false := by
      simp only [beq_eq_false_iff_ne, ne_eq]; omega
    rw [h1, h2, h3, h4, h5, h6, h7, h8]
  · rw [toLower_eq_self_of_not_upper c h]

theorem dropWhile_map_toLower (l : List Char) :
    (l.map Char.toLower).dropWhile Char.isWhitespace
      = (l.dropWhile Char.isWhitespace).map Char.toLower := by
  induction l with
  | nil => rfl
  | cons c l ih =>
      simp only [List.map_cons, List.dropWhile_cons, isWhitespace_toLower]
      by_cases h : c.isWhitespace
      · rw [if_pos h, if_pos h, ih]
      · rw [if_neg h, if_neg h, List.map_cons]

theorem trimChars_map_toLower (l : List Char) :
    trimChars (l.map Char.toLower) = (trimChars l).map Char.toLower := by
  unfold trimChars
  rw [dropWhile_map_toLower, ← List.map_reverse, dropWhile_map_toLower, ← List.map_reverse]

theorem strLower_strTrim_eq {n1 n2 : String} (h : strLower n1 = strLower n2) :
    strLower (strTrim n1) = strLower (strTrim n2) := by
  have hd : n1.data.map Char.toLower = n2.data.map Char.toLower := congrArg String.data h
  show (⟨(trimChars n1.data).map Char.toLower⟩ : String)
      = ⟨(trimChars n2.data).map Char.toLower⟩
  rw [← trimChars_map_toLower, ← trimChars_map_toLower, hd]

theorem strTrim_ne_empty {n1 n2 : String} (h : strLower n1 = strLower n2)
    (hne : strTrim n1 ≠ "") : strTrim n2 ≠ "" := by
  intro h2
  apply hne
  have hk := strLower_strTrim_eq h
  rw [h2] at hk
  have hmap : (strTrim n1).data.map Char.toLower = [] := by
    have := congrArg String.data hk
    simpa [strLower] using this
  have hnil : (strTrim n1).data = [] := List.map_eq_nil_iff.mp hmap
  show (⟨(strTrim n1).data⟩ : String) = ""
  rw [hnil]

/-! ### Case-insensitive tag attachment (C3) -/

/-- C3: tag attachment is idempotent up to case: for every document in
the store with no prior tag associations and every pair of (nonempty)
tag names equal ignoring case, `attach(d, [n1])` followed by
`attach(d, [n2])` succeeds and leaves the document with exactly one
associated tag — `getOrCreate` looks the name up case-insensitively and
returns the existing tag instead of creating a duplicate. -/
theorem c3_attach_idempotent_up_to_case (st : Store) (docId : Nat) (n1 n2 : String)
    (hdoc : (st.documents.find? (fun d => d.id == docId)).isSome = true)
    (hclean : ∀ p ∈ st.docTags, p.1 ≠ docId)
    (hlow : strLower n1 = strLower n2)
    (hne : strTrim n1 ≠ "") :
    exactlyOneTagFor (afterTwoAttaches st docId n1 n2) docId := by
  obtain ⟨d0, hd0⟩ := Option.isSome_iff_exists.mp hdoc
  have hk := strLower_strTrim_eq hlow
  have hne2 : strTrim n2 ≠ "" := strTrim_ne_empty hlow hne
  have hfold : ∀ (s : Store) (n : String),
      List.foldlM (attachOne docId) s [n] = attachOne docId s n := by
    intro s n
    simp only [List.foldlM_cons, List.foldlM_nil]
    cases attachOne docId s n <;> rfl
  have hnil : st.docTags.filter (fun p => p.1 == docId) = [] := by
    rw [List.filter_eq_nil_iff]
    intro p hp
    simpa using hclean p hp
  cases hfind : st.tags.find? (fun t => strLower t.name == strLower (strTrim n1)) with
  | some t1 =>
      have hGet1 : getOrCreateTag st n1 = .ok (st, t1) := by
        simp [getOrCreateTag, hne, hfind]
      have hmem1 : ¬ ((docId, t1.id) ∈ st.docTags) := fun hm => hclean _ hm rfl
      have hA1 : attachOne docId st n1
          = .ok { st with docTags := st.docTags ++ [(docId, t1.id)] } := by
        simp [attachOne, hGet1, hmem1]
      have hT1 : attachTags st docId [n1]
          = .ok { st with docTags := st.docTags ++ [(docId, t1.id)] } := by
        simp [attachTags, hd0, hfold, hA1]
      have hfind2 : st.tags.find? (fun t => strLower t.name == strLower (strTrim n2))
          = some t1 := by
        have hpred : (fun t : Tag => strLower t.name == strLower (strTrim n2))
            = (fun t : Tag => strLower t.name == strLower (strTrim n1)) := by
          funext t; rw [hk]
        rw [hpred]; exact hfind
      have hGet2 : getOrCreateTag { st with docTags := st.docTags ++ [(docId, t1.id)] } n2
          = .ok ({ st with docTags := st.docTags ++ [(docId, t1.id)] }, t1) := by
        simp [getOrCreateTag, hne2, hfind2]
      have hmem2 : (docId, t1.id) ∈ st.docTags ++ [(docId, t1.id)] := by simp
      have hA2 : attachOne docId { st with docTags := st.docTags ++ [(docId, t1.id)] } n2
          = .ok { st with docTags := st.docTags ++ [(docId, t1.id)] } := by
        simp [attachOne, hGet2, hmem2]
      have hT2 : attachTags { st with docTags := st.docTags ++ [(docId, t1.id)] } docId [n2]
          = .ok { st with docTags := st.docTags ++ [(docId, t1.id)] } := by
        simp [attachTags, hd0, hfold, hA2]
      show exactlyOneTagFor _ _
      rw [afterTwoAttaches, hT1]
      show exactlyOneTagFor (attachTags _ docId [n2]) docId
      rw [hT2]
      show (List.filter _ (st.docTags ++ [(docId, t1.id)])).length = 1
      simp [List.filter_append, hnil]
  | none =>
      have hGet1 : getOrCreateTag st n1
          = .ok ({ st with tags := st.tags ++ [⟨nextTagId st.tags, strTrim n1⟩] },
                 ⟨nextTagId st.tags, strTrim n1⟩) := by
        simp [getOrCreateTag, hne, hfind]
      have hmem1 : ¬ ((docId, nextTagId st.tags) ∈ st.docTags) := fun hm => hclean _ hm rfl
      have hA1 : attachOne docId st n1
          = .ok { st with tags := st.tags ++ [⟨nextTagId st.tags, strTrim n1⟩], docTags := st.docTags ++ [(docId, nextTagId st.tags)] } := by
        simp [attachOne, hGet1, hmem1]
      have hT1 : attachTags st docId [n1]
          = .ok { st with tags := st.tags ++ [⟨nextTagId st.tags, strTrim n1⟩], docTags := st.docTags ++ [(docId, nextTagId st.tags)] } := by
        simp [attachTags, hd0, hfold, hA1]
      have hfind2a : st.tags.find? (fun t => strLower t.name == strLower (strTrim n2))
          = none := by
        have hpred : (fun t : Tag => strLower t.name == strLower (strTrim n2))
            = (fun t : Tag => strLower t.name == strLower (strTrim n1)) := by
          funext t; rw [hk]
        rw [hpred]; exact hfind
      have hfind2 : (st.tags ++ [Tag.mk (nextTagId st.tags) (strTrim n1)]).find?
          (fun t : Tag => strLower t.name == strLower (strTrim n2))
          = some (Tag.mk (nextTagId st.tags) (strTrim n1)) := by
        rw [List.find?_append, hfind2a]
        simp [List.find?, hk]
      have hGet2 : getOrCreateTag
          { st with tags := st.tags ++ [⟨nextTagId st.tags, strTrim n1⟩], docTags := st.docTags ++ [(docId, nextTagId st.tags)] } n2
          = .ok ({ st with tags := st.tags ++ [⟨nextTagId st.tags, strTrim n1⟩], docTags := st.docTags ++ [(docId, nextTagId st.tags)] },
                 ⟨nextTagId st.tags, strTrim n1⟩) := by
        simp [getOrCreateTag, hne2, hfind2]
      have hmem2 : (docId, nextTagId st.tags)
          ∈ st.docTags ++ [(docId, nextTagId st.tags)] := by simp
      have hA2 : attachOne docId
          { st with tags := st.tags ++ [⟨nextTagId st.tags, strTrim n1⟩], docTags := st.docTags ++ [(docId, nextTagId st.tags)] } n2
          = .ok { st with tags := st.tags ++ [⟨nextTagId st.tags, strTrim n1⟩], docTags := st.docTags ++ [(docId, nextTagId st.tags)] } := by
        simp [attachOne, hGet2, hmem2]
      have hT2 : attachTags
          { st with tags := st.tags ++ [⟨nextTagId st.tags, strTrim n1⟩], docTags := st.docTags ++ [(docId, nextTagId st.tags)] } docId [n2]
          = .ok { st with tags := st.tags ++ [⟨nextTagId st.tags, strTrim n1⟩], docTags := st.docTags ++ [(docId, nextTagId st.tags)] } := by
        simp [attachTags, hd0, hfold, hA2]
      show exactlyOneTagFor _ _
      rw [afterTwoAttaches, hT1]
      show exactlyOneTagFor (attachTags _ docId [n2]) docId
      rw [hT2]
      show (List.filter _ (st.docTags ++ [(docId, nextTagId st.tags)])).length = 1
      simp [List.filter_append, hnil]

/-- C3 witness: attaching `"Foo"` then `"foo"` to a fresh document of a
concrete store succeeds and leaves exactly one associated tag. -/
theorem c3_attach_idempotent_up_to_case_witness :
    exactlyOneTagFor
      (afterTwoAttaches ⟨[⟨1, "a.pdf", "a.pdf", 1, .processed⟩], [], [], []⟩ 1 "Foo" "foo") 1 :=
  c3_attach_idempotent_up_to_case ⟨[⟨1, "a.pdf", "a.pdf", 1, .processed⟩], [], [], []⟩ 1
    "Foo" "foo" (by decide) (by intro p hp; simp at hp) (by decide) (by decide)

end DocProc
